import Mathlib

set_option maxHeartbeats 1000000

/-!
Shallow embedding of the playlist-resolution and segment-assembly pipeline of
`src/spiderkit/downloader/m3u8_downloader.py` (class `M3U8Downloader`).

The pure string/number computations of the source are translated directly.
Effectful collaborators (the `m3u8` parser library, the batch fetch engine
`download_files`, the two `ffmpeg` subprocesses, `get_config`, and the file
system) are modelled by oracles and flags in `PipelineEnv` together with an
explicit file-system state (`FS`, the set of existing paths), so that
`download_video` and `_merge_and_convert_segments` become pure functions of
the environment and the initial file system.
-/

/-- Decimal digit characters of a natural number, most significant digit
first.  The `fuel` argument only bounds the recursion; every use supplies
enough fuel for it never to run out (`natDigitsAux_fuel` below). -/
def natDigitsAux : Nat → Nat → List Char
  | 0, _ => []
  | fuel + 1, n =>
    if n < 10 then [Nat.digitChar n]
    else natDigitsAux fuel (n / 10) ++ [Nat.digitChar (n % 10)]

/-- Decimal representation of a natural number as a list of digit characters,
most significant digit first. -/
def natDigits (n : Nat) : List Char := natDigitsAux (n + 1) n

/-- Python's format specifier `04d` applied to a non-negative integer, as in
the source's segment file name: the decimal digits, left-padded with `'0'` to
a minimum width of 4 (numbers with five or more digits are not truncated). -/
def pad04 (n : Nat) : String :=
  String.mk (List.replicate (4 - (natDigits n).length) '0' ++ natDigits n)

/-- Modelled after `os.path.join` for the relative components this pipeline
joins: the two parts separated by one `/`.  (POSIX treats a repeated
separator the same as a single one, so a trailing slash on `dir` is
harmless in this path model.) -/
def joinPath (dir name : String) : String := dir ++ "/" ++ name

/-- The segment file name built at line 150 of the source:
`segment_` followed by the index formatted with `04d`, then `.ts`. -/
def segmentFileName (idx : Nat) : String := "segment_" ++ pad04 idx ++ ".ts"

/-- Destination path assigned to segment `idx` by the download map at
line 150 of the source. -/
def planPath (segmentsDir : String) (idx : Nat) : String :=
  joinPath segmentsDir (segmentFileName idx)

/-- Ordered destination paths of the download map for `n` segment URLs
(the keys of the dict comprehension at line 150, in insertion order). -/
def planPaths (segmentsDir : String) (n : Nat) : List String :=
  (List.range n).map (planPath segmentsDir)

/-- Split a character list at its last `'/'`: returns the part before it
and the part after it, or `none` when no `'/'` occurs.  This models
Python's `s.rsplit("/", 1)`. -/
def rsplitLast : List Char → Option (List Char × List Char)
  | [] => none
  | c :: rest =>
    match rsplitLast rest with
    | some (b, a) => some (c :: b, a)
    | none => if c = '/' then some ([], rest) else none

/-- The base URI assigned at line 59 of the source:
`m3u8_url.rsplit("/", 1)[0] + "/"`. -/
def baseOf (url : String) : String :=
  match rsplitLast url.data with
  | some (b, _) => String.mk (b ++ ['/'])
  | none => url ++ "/"

/-- Modelled after `os.path.dirname`: the part of the path before its last
separator (`""` when there is none; the Python function's normalization of
trailing separators is omitted, no claim depends on it). -/
def dirName (path : String) : String :=
  match rsplitLast path.data with
  | some (b, _) => String.mk b
  | none => ""

/-- Boolean test that `p` is an initial run of `s`. -/
def leadsWith : List Char → List Char → Bool
  | [], _ => true
  | _ :: _, [] => false
  | a :: p, b :: s => a == b && leadsWith p s

/-- Modelled from the spec: the `m3u8` library's absolute-URI test used by
`segment.absolute_uri` — a URI is absolute when it starts with a scheme
(`http://` or `https://`); such URIs pass through resolution unchanged. -/
def isUrl (uri : String) : Bool :=
  leadsWith "http://".data uri.data || leadsWith "https://".data uri.data

/-- Modelled from the spec: `urllib.parse.urljoin` as the pipeline uses it —
an absolute URI passes through unchanged, a relative one is appended to the
base URI (every base this code produces ends in `/`). -/
def urljoin (baseUri uri : String) : String :=
  if isUrl uri then uri else baseUri ++ uri

/-- One variant stream entry of a master playlist
(`p.uri` and `p.stream_info.bandwidth`). -/
structure StreamVariant where
  uri : String
  bandwidth : Nat
deriving DecidableEq

/-- One segment entry of a media playlist (`segment.uri`). -/
structure MediaSegment where
  uri : String
deriving DecidableEq

/-- A parsed playlist: either a master playlist (`playlist.is_variant`,
holding its ordered variant streams) or a media playlist (holding its
ordered segments). -/
inductive PlaylistNode where
  | master (variants : List StreamVariant)
  | media (segments : List MediaSegment)
deriving DecidableEq

/-- What `m3u8.load` returns: the parsed node together with the base URI the
parser itself supplies.  Line 59 of the source immediately overwrites that
base, so the resolver never consults `parserBaseUri`. -/
structure FetchedPlaylist where
  parserBaseUri : String
  node : PlaylistNode
deriving DecidableEq

/-- Python's `max(xs, key=key)`: `none` on an empty list (Python raises
`ValueError`); otherwise a left fold that replaces the current maximum only
when the new key is strictly greater, so the first element attaining the
maximum key is kept. -/
def pyMax (key : α → Nat) : List α → Option α
  | [] => none
  | x :: xs => some (xs.foldl (fun acc y => if key acc < key y then y else acc) x)

/-- The variant selection at line 63 of the source:
`max(playlist.playlists, key=lambda p: p.stream_info.bandwidth)`. -/
def selectVariant (variants : List StreamVariant) : Option StreamVariant :=
  pyMax (fun v => v.bandwidth) variants

/-- Classified terminal errors of one invocation.  `recursionDepthExceeded`
is the `RecursionError` of line 55; `playlistLoadError` covers the fetch and
parse failures raised by `m3u8.load`; `emptyMasterError` is the `ValueError`
Python's `max` raises on a master playlist with no variants;
`downloadError` is a failure raised by the batch fetch engine;
`mergeConvertFailed` is the `RuntimeError` of line 162. -/
inductive PipelineError where
  | recursionDepthExceeded
  | playlistLoadError
  | emptyMasterError
  | downloadError
  | mergeConvertFailed
deriving DecidableEq

/-- Recursion worker for `_extract_segment_urls`.  The `fuel` argument is
always `maxDepth - currentDepth`, so the `0` case and the inner
`maxDepth ≤ currentDepth` test together implement exactly the depth check of
line 54 (`current_depth >= max_depth`), which runs before the playlist at
the current URL is even loaded. -/
def extractAux (fetch : String → Option FetchedPlaylist) :
    Nat → String → Nat → Nat → Except PipelineError (List String)
  | 0, _, _, _ => .error .recursionDepthExceeded
  | fuel + 1, m3u8Url, maxDepth, currentDepth =>
    if maxDepth ≤ currentDepth then .error .recursionDepthExceeded
    else
      match fetch m3u8Url with
      | none => .error .playlistLoadError
      | some playlist =>
        match playlist.node with
        | .master variants =>
          match selectVariant variants with
          | none => .error .emptyMasterError
          | some selectedStream =>
            extractAux fetch fuel (urljoin (baseOf m3u8Url) selectedStream.uri)
              maxDepth (currentDepth + 1)
        | .media segments =>
          .ok (segments.map (fun s =>
            if isUrl s.uri then s.uri else urljoin (baseOf m3u8Url) s.uri))

/-- `_extract_segment_urls(m3u8_url, max_depth, current_depth)` (lines
39-76): raises `RecursionError` when `current_depth >= max_depth`; loads the
playlist, overrides its base URI with `baseOf m3u8_url`; on a master
playlist selects the maximum-bandwidth variant, resolves its URI against the
base and recurses with `current_depth + 1`; on a media playlist returns each
segment's absolute URI in document order. -/
def extractSegmentUrls (fetch : String → Option FetchedPlaylist)
    (m3u8Url : String) (maxDepth currentDepth : Nat) :
    Except PipelineError (List String) :=
  extractAux fetch (maxDepth - currentDepth) m3u8Url maxDepth currentDepth

/-- The pipeline stages of the spec's state machine that correspond to an
observable action of the code: attempting resolution, invoking the batch
download, invoking the concat process, invoking the remux process, and
running the `finally` cleanup block. -/
inductive Stage where
  | resolving
  | downloading
  | merging
  | converting
  | cleaningUp
deriving DecidableEq

/-- File-system state: the set of existing paths, as a list. -/
abbrev FS := List String

/-- Whether `p` lies in the tree rooted at `dir` (it is `dir` itself or has
`dir ++ "/"` as an initial run); `shutil.rmtree dir` removes exactly these
paths. -/
def isUnder (dir p : String) : Bool :=
  p == dir || leadsWith (dir.data ++ ['/']) p.data

/-- Outcomes of the external collaborators for one invocation, together with
the playlist oracle.  `fetch u` is what `m3u8.load u` yields (`none` when it
raises).  `fetchFilesOk` is whether `download_files` returns rather than
raises; `downloaded i` is whether segment `i`'s destination file actually
exists afterwards (the engine's contract says all do on success, but the
coordinator never checks).  `manifestWriteOk` is whether writing the ffmpeg
concat manifest succeeds; `mergeExitOk` / `convertExitOk` are the zero-exit
signals of the two subprocesses, and `mergeWritesOutput` /
`convertWritesOutput` are whether each process left (possibly partial)
output at its target path. -/
structure PipelineEnv where
  fetch : String → Option FetchedPlaylist
  fetchFilesOk : Bool
  downloaded : Nat → Bool
  manifestWriteOk : Bool
  mergeExitOk : Bool
  mergeWritesOutput : Bool
  convertExitOk : Bool
  convertWritesOutput : Bool

/-- The process-wide configuration consulted by `download_video`
(`get_config()`): the default cleanup flag and the configured temporary
directory (`""` models an unset `temp_dir`, which is falsy in Python). -/
structure AppConfig where
  cleanupTempFiles : Bool
  tempDir : String

/-- Modelled from the spec: `tempfile.mkdtemp(prefix="m3u8_download_")`
creates a fresh uniquely named directory; one invocation owns one
workspace, so a fixed name represents it. -/
def mkdtempName : String := "/tmp/m3u8_download_x"

/-- The effective temporary directory of lines 136-139: a falsy (absent or
empty) `temp_directory` argument falls back to `config.temp_dir`, and a
falsy configured value falls back to a fresh `mkdtemp` directory. -/
def effectiveTempDir (config : AppConfig) (tempDirectory : Option String) : String :=
  match tempDirectory with
  | some t => if t = "" then (if config.tempDir = "" then mkdtempName else config.tempDir) else t
  | none => if config.tempDir = "" then mkdtempName else config.tempDir

/-- The effective cleanup flag of lines 133-134: the argument when given,
otherwise `config.cleanup_temp_files`. -/
def effectiveCleanup (config : AppConfig) (cleanupTemp : Option Bool) : Bool :=
  cleanupTemp.getD config.cleanupTempFiles

/-- `_merge_and_convert_segments(segment_files, intermediate_ts_path,
final_output_path)` (lines 78-114) over the file-system state.  The manifest
`file_list_path` is created by `open(..., "w")`; a failed write, a non-zero
concat exit or a non-zero remux exit each lead to `return False` via the
`except` clause (each subprocess may still have written full or partial
output first); the `finally` clause removes the manifest on every exit
path.  Returns the success flag, the resulting file system, and the
external-process stages that were invoked. -/
def mergeAndConvert (env : PipelineEnv) (segmentFiles : List String)
    (intermediateTsPath finalOutputPath : String) (fs : FS) :
    Bool × FS × List Stage :=
  let fileListPath := intermediateTsPath ++ ".txt"
  let fs1 : FS := fileListPath :: fs
  if env.manifestWriteOk then
    let fs2 : FS := if env.mergeWritesOutput then intermediateTsPath :: fs1 else fs1
    if env.mergeExitOk then
      let fs3 : FS := if env.convertWritesOutput then finalOutputPath :: fs2 else fs2
      if env.convertExitOk then
        (true, fs3.filter (fun p => p != fileListPath), [.merging, .converting])
      else
        (false, fs3.filter (fun p => p != fileListPath), [.merging, .converting])
    else
      (false, fs2.filter (fun p => p != fileListPath), [.merging])
  else
    (false, fs1.filter (fun p => p != fileListPath), [])

/-- The body of `download_video` (lines 131-163) before its `finally`
block: prepare the workspace directories (`os.makedirs` also creates
missing parents), resolve the playlist with the default `max_depth = 5`,
build the download map, run the batch download (marking which destination
files exist afterwards), then merge and convert; a `False` from the merge
step becomes the `RuntimeError` of line 162.  Returns the outcome, the
file-system state, and the stages run. -/
def downloadVideoCore (env : PipelineEnv) (config : AppConfig)
    (m3u8Url outputPath : String) (tempDirectory : Option String) (fs : FS) :
    Except PipelineError Unit × FS × List Stage :=
  let temp := effectiveTempDir config tempDirectory
  let segmentsDir := joinPath temp "ts_segments"
  let outputDir := dirName outputPath
  let fs1 : FS := temp :: segmentsDir :: fs
  let fs2 : FS := if outputDir = "" then fs1 else outputDir :: fs1
  match extractSegmentUrls env.fetch m3u8Url 5 0 with
  | .error e => (.error e, fs2, [.resolving])
  | .ok segmentUrls =>
    if env.fetchFilesOk then
      let fs3 : FS := fs2 ++ (List.range segmentUrls.length).filterMap
        (fun i => if env.downloaded i then some (planPath segmentsDir i) else none)
      let mergedTsPath := joinPath temp "merged_video.ts"
      let m := mergeAndConvert env (planPaths segmentsDir segmentUrls.length)
        mergedTsPath outputPath fs3
      (if m.1 then .ok () else .error .mergeConvertFailed, m.2.1,
        [.resolving, .downloading] ++ m.2.2)
    else
      (.error .downloadError, fs2, [.resolving, .downloading])

/-- `download_video(m3u8_url, output_path, temp_directory, cleanup_temp)`
(lines 116-171): the body above, then the `finally` block, which — whether
the body succeeded or raised — recursively removes the temporary directory
when the effective cleanup flag is set.  The terminal `cleaningUp` stage is
always recorded. -/
def downloadVideo (env : PipelineEnv) (config : AppConfig)
    (m3u8Url outputPath : String) (tempDirectory : Option String)
    (cleanupTemp : Option Bool) (fs : FS) :
    Except PipelineError Unit × FS × List Stage :=
  let temp := effectiveTempDir config tempDirectory
  let r := downloadVideoCore env config m3u8Url outputPath tempDirectory fs
  (r.1,
    if effectiveCleanup config cleanupTemp then
      r.2.1.filter (fun p => !isUnder temp p)
    else r.2.1,
    r.2.2 ++ [.cleaningUp])

/-- One master-playlist hop of a variant chain: the playlist at `u` is a
master playlist whose maximum-bandwidth variant resolves to `u'`. -/
def masterStep (fetch : String → Option FetchedPlaylist) (u u' : String) : Prop :=
  ∃ parserBase variants sel,
    fetch u = some ⟨parserBase, .master variants⟩ ∧
    selectVariant variants = some sel ∧
    urljoin (baseOf u) sel.uri = u'

/-- The playlist at `u` is a media playlist. -/
def mediaAt (fetch : String → Option FetchedPlaylist) (u : String) : Prop :=
  ∃ parserBase segments, fetch u = some ⟨parserBase, .media segments⟩

/-- Concrete oracle for a Master → Media chain of one variant hop:
a master playlist at `http://h/m.m3u8` whose only variant leads to the
media playlist at `http://h/v.m3u8`. -/
def exChainFetch : String → Option FetchedPlaylist := fun u =>
  if u == "http://h/m.m3u8" then some ⟨"", .master [⟨"v.m3u8", 100⟩]⟩
  else if u == "http://h/v.m3u8" then some ⟨"", .media [⟨"s.ts"⟩]⟩
  else none

/-- The URL chain walked by `exChainFetch` starting at the master URL. -/
def exChainUrls : Nat → String := fun i =>
  if i == 0 then "http://h/m.m3u8" else "http://h/v.m3u8"

/-- The bandwidth example of the spec: 500000 and 1200000, with the maximum
duplicated to exercise the tie-break. -/
def exVariants : List StreamVariant :=
  [⟨"a.m3u8", 500000⟩, ⟨"b.m3u8", 1200000⟩, ⟨"c.m3u8", 1200000⟩]

/-- The media playlist of the spec's first example scenario, with a mix of
relative and absolute segment URIs. -/
def exMediaSegments : List MediaSegment :=
  [⟨"s1.ts"⟩, ⟨"http://cdn/s2.ts"⟩, ⟨"s3.ts"⟩]

/-- Concrete oracle serving `exMediaSegments` at one URL. -/
def exMediaFetch : String → Option FetchedPlaylist := fun u =>
  if u == "http://h/a/m.m3u8" then some ⟨"", .media exMediaSegments⟩ else none

/-- Oracle pair for the C10 witness: identical playlists, different
parser-supplied base URIs. -/
def exBaseFetchA : String → Option FetchedPlaylist := fun u =>
  if u == "http://h/a/m.m3u8?tok=x/y"
  then some ⟨"http://parser-a/", .media [⟨"s.ts"⟩]⟩ else none

/-- Second oracle of the C10 witness pair. -/
def exBaseFetchB : String → Option FetchedPlaylist := fun u =>
  if u == "http://h/a/m.m3u8?tok=x/y"
  then some ⟨"http://parser-b/", .media [⟨"s.ts"⟩]⟩ else none

/-- Environment in which every external collaborator behaves: the media
playlist of `exMediaFetch`, a fetch engine that writes every file, and two
clean subprocess runs. -/
def exEnvOk : PipelineEnv :=
  ⟨exMediaFetch, true, fun _ => true, true, true, true, true, true⟩

/-- Process-wide configuration used by the concrete scenarios: cleanup
defaults to off, no configured temporary directory. -/
def exConfig : AppConfig := ⟨false, ""⟩

/-- Environment in which the fetch engine reports success but segment 1's
destination file does not exist afterwards (everything else behaves). -/
def exEnvMissing : PipelineEnv :=
  ⟨exMediaFetch, true, fun i => !(i == 1), true, true, true, true, true⟩

/-- Environment in which the remux process writes (partial) output at the
final path but exits non-zero (everything else behaves). -/
def exEnvConvertFail : PipelineEnv :=
  ⟨exMediaFetch, true, fun _ => true, true, true, true, false, true⟩

lemma extractSegmentUrls_eq (fetch : String → Option FetchedPlaylist)
    (url : String) (maxDepth currentDepth : Nat) :
    extractSegmentUrls fetch url maxDepth currentDepth =
      if maxDepth ≤ currentDepth then .error .recursionDepthExceeded
      else
        match fetch url with
        | none => .error .playlistLoadError
        | some playlist =>
          match playlist.node with
          | .master variants =>
            match selectVariant variants with
            | none => .error .emptyMasterError
            | some sel =>
              extractSegmentUrls fetch (urljoin (baseOf url) sel.uri)
                maxDepth (currentDepth + 1)
          | .media segments =>
            .ok (segments.map fun s =>
              if isUrl s.uri then s.uri else urljoin (baseOf url) s.uri) := by
  unfold extractSegmentUrls
  cases h : maxDepth - currentDepth with
  | zero =>
    have hle : maxDepth ≤ currentDepth := by omega
    simp only [extractAux, if_pos hle]
  | succ k =>
    have hgt : ¬ maxDepth ≤ currentDepth := by omega
    have hk : k = maxDepth - (currentDepth + 1) := by omega
    simp only [extractAux, if_neg hgt]
    rw [hk]

lemma pyFoldMax_spec (key : α → Nat) :
    ∀ (xs : List α) (x : α),
      ∃ pre post,
        x :: xs = pre ++ (xs.foldl (fun acc y => if key acc < key y then y else acc) x) :: post ∧
        (∀ u ∈ pre, key u < key (xs.foldl (fun acc y => if key acc < key y then y else acc) x)) ∧
        (∀ u ∈ x :: xs, key u ≤ key (xs.foldl (fun acc y => if key acc < key y then y else acc) x)) := by
  intro xs
  induction xs with
  | nil =>
    intro x
    exact ⟨[], [], rfl, by simp, by simp⟩
  | cons y ys ih =>
    intro x
    by_cases hxy : key x < key y
    · obtain ⟨pre, post, hdec, hpre, hbound⟩ := ih y
      have hstep : (y :: ys).foldl (fun acc y => if key acc < key y then y else acc) x =
          ys.foldl (fun acc y => if key acc < key y then y else acc) y := by
        simp [List.foldl_cons, if_pos hxy]
      rw [hstep]
      refine ⟨x :: pre, post, by rw [List.cons_append, ← hdec], ?_, ?_⟩
      · intro u hu
        rcases List.mem_cons.mp hu with rfl | hu
        · exact lt_of_lt_of_le hxy (hbound y (List.mem_cons_self _ _))
        · exact hpre u hu
      · intro u hu
        rcases List.mem_cons.mp hu with rfl | hu
        · exact le_of_lt (lt_of_lt_of_le hxy (hbound y (List.mem_cons_self _ _)))
        · exact hbound u hu
    · obtain ⟨pre, post, hdec, hpre, hbound⟩ := ih x
      have hstep : (y :: ys).foldl (fun acc y => if key acc < key y then y else acc) x =
          ys.foldl (fun acc y => if key acc < key y then y else acc) x := by
        simp [List.foldl_cons, if_neg hxy]
      rw [hstep]
      cases pre with
      | nil =>
        have hx : x = ys.foldl (fun acc y => if key acc < key y then y else acc) x :=
          (List.cons.injEq _ _ _ _ ▸ hdec).1
        refine ⟨[], y :: ys, ?_, by simp, ?_⟩
        · simpa using hx ▸ rfl
        · intro u hu
          rcases List.mem_cons.mp hu with rfl | hu
          · exact hx ▸ le_refl _
          · rcases List.mem_cons.mp hu with rfl | hu
            · exact hx ▸ le_of_not_lt hxy
            · exact hbound u (List.mem_cons_of_mem x hu)
      | cons a pre' =>
        have ha : a = x := ((List.cons.injEq _ _ _ _).mp hdec).1.symm
        have hys : ys = pre' ++ (ys.foldl (fun acc y => if key acc < key y then y else acc) x) :: post :=
          ((List.cons.injEq _ _ _ _).mp hdec).2
        have hxlt : key x < key (ys.foldl (fun acc y => if key acc < key y then y else acc) x) := by
          have := hpre a (List.mem_cons_self _ _)
          rwa [ha] at this
        refine ⟨x :: y :: pre', post, ?_, ?_, ?_⟩
        · rw [List.cons_append, List.cons_append, ← hys]
        · intro u hu
          rcases List.mem_cons.mp hu with rfl | hu
          · exact hxlt
          · rcases List.mem_cons.mp hu with rfl | hu
            · exact lt_of_le_of_lt (le_of_not_lt hxy) hxlt
            · exact hpre u (ha ▸ List.mem_cons_of_mem a hu)
        · intro u hu
          rcases List.mem_cons.mp hu with rfl | hu
          · exact le_of_lt hxlt
          · rcases List.mem_cons.mp hu with rfl | hu
            · exact le_of_lt (lt_of_le_of_lt (le_of_not_lt hxy) hxlt)
            · exact hbound u (List.mem_cons_of_mem x hu)

lemma extract_stop (fetch : String → Option FetchedPlaylist) (url : String)
    {maxDepth currentDepth : Nat} (h : maxDepth ≤ currentDepth) :
    extractSegmentUrls fetch url maxDepth currentDepth =
      .error .recursionDepthExceeded := by
  rw [extractSegmentUrls_eq, if_pos h]

lemma extract_master {fetch : String → Option FetchedPlaylist} {url : String}
    {maxDepth currentDepth : Nat} (h : currentDepth < maxDepth)
    {parserBase : String} {variants : List StreamVariant} {sel : StreamVariant}
    (hf : fetch url = some ⟨parserBase, .master variants⟩)
    (hsel : selectVariant variants = some sel) :
    extractSegmentUrls fetch url maxDepth currentDepth =
      extractSegmentUrls fetch (urljoin (baseOf url) sel.uri)
        maxDepth (currentDepth + 1) := by
  rw [extractSegmentUrls_eq, if_neg (by omega), hf]
  show (match selectVariant variants with
    | none => Except.error PipelineError.emptyMasterError
    | some sel =>
      extractSegmentUrls fetch (urljoin (baseOf url) sel.uri)
        maxDepth (currentDepth + 1)) = _
  rw [hsel]

lemma extract_media {fetch : String → Option FetchedPlaylist} {url : String}
    {maxDepth currentDepth : Nat} (h : currentDepth < maxDepth)
    {parserBase : String} {segments : List MediaSegment}
    (hf : fetch url = some ⟨parserBase, .media segments⟩) :
    extractSegmentUrls fetch url maxDepth currentDepth =
      .ok (segments.map fun s =>
        if isUrl s.uri then s.uri else urljoin (baseOf url) s.uri) := by
  rw [extractSegmentUrls_eq, if_neg (by omega), hf]

/-- C1 (counterexample): a Master → Media chain of length 1 resolved with
`maxDepth = 1` — the node reached at depth 1 (= `maxDepth`) is a Media
playlist, so by the claim `resolve` should succeed and return its segment
URLs; the code instead raises `RecursionError`, because line 54 checks
`current_depth >= max_depth` before it even loads the playlist at that
depth. -/
theorem claim_C1_counterexample :
    extractSegmentUrls exChainFetch (exChainUrls 0) 1 0 =
      .error .recursionDepthExceeded := by rfl

/-- C1 (amended): for a variant chain of `k` master hops ending at a media
playlist, `resolve` fails with `RecursionDepthExceeded` iff `maxDepth ≤ k` —
i.e. iff the depth counter reaches `maxDepth` at entry to some call,
regardless of whether the node at depth `maxDepth` is a Master or a Media
playlist. -/
theorem claim_C1_amended (fetch : String → Option FetchedPlaylist)
    (urls : Nat → String) (k maxDepth : Nat)
    (hchain : ∀ i, i < k → masterStep fetch (urls i) (urls (i + 1)))
    (hmedia : mediaAt fetch (urls k)) :
    (extractSegmentUrls fetch (urls 0) maxDepth 0 =
      .error .recursionDepthExceeded) ↔ maxDepth ≤ k := by
  have h : ∀ n j, j + n = k →
      ((extractSegmentUrls fetch (urls j) maxDepth j =
        .error .recursionDepthExceeded) ↔ maxDepth ≤ k) := by
    intro n
    induction n with
    | zero =>
      intro j hj
      have hj' : j = k := by omega
      subst hj'
      by_cases hle : maxDepth ≤ j
      · simp [extract_stop fetch _ hle, hle]
      · obtain ⟨parserBase, segments, hf⟩ := hmedia
        rw [extract_media (by omega) hf]
        simp [hle]
    | succ n ih =>
      intro j hj
      have hjk : j < k := by omega
      obtain ⟨parserBase, variants, sel, hf, hsel, hurl⟩ := hchain j hjk
      by_cases hle : maxDepth ≤ j
      · simp only [extract_stop fetch _ hle, true_iff]
        omega
      · rw [extract_master (by omega) hf hsel, hurl]
        exact ih (j + 1) (by omega)
  exact h k 0 (by omega)

/-- C1 (witness for the amended claim): on the concrete one-hop chain with
`maxDepth = 5`, resolution does not fail with `RecursionDepthExceeded`
(`5 ≤ 1` is false). -/
theorem claim_C1_witness :
    (extractSegmentUrls exChainFetch (exChainUrls 0) 5 0 =
      .error .recursionDepthExceeded) ↔ 5 ≤ 1 :=
  claim_C1_amended exChainFetch exChainUrls 1 5
    (by
      intro i hi
      have hi0 : i = 0 := by omega
      subst hi0
      exact ⟨"", [⟨"v.m3u8", 100⟩], ⟨"v.m3u8", 100⟩, rfl, rfl, rfl⟩)
    ⟨"", [⟨"s.ts"⟩], rfl⟩

/-- C4: for every non-empty master playlist, the selected variant's
bandwidth is ≥ every other variant's bandwidth, and the selection is the
first variant attaining that maximum in document order (every variant
strictly before it has strictly smaller bandwidth). -/
theorem claim_C4_select_max (variants : List StreamVariant)
    (h : variants ≠ []) :
    ∃ sel pre post,
      selectVariant variants = some sel ∧
      variants = pre ++ sel :: post ∧
      (∀ v ∈ variants, v.bandwidth ≤ sel.bandwidth) ∧
      (∀ v ∈ pre, v.bandwidth < sel.bandwidth) := by
  cases variants with
  | nil => exact absurd rfl h
  | cons x xs =>
    obtain ⟨pre, post, hdec, hpre, hbound⟩ :=
      pyFoldMax_spec (fun v => v.bandwidth) xs x
    exact ⟨_, pre, post, rfl, hdec, hbound, hpre⟩

/-- C4 (witness): on variants of bandwidth 500000, 1200000, 1200000 the
selection exists, attains the maximum, and every earlier variant is
strictly smaller — i.e. the first 1200000 entry is chosen. -/
theorem claim_C4_witness :
    ∃ sel pre post,
      selectVariant exVariants = some sel ∧
      exVariants = pre ++ sel :: post ∧
      (∀ v ∈ exVariants, v.bandwidth ≤ sel.bandwidth) ∧
      (∀ v ∈ pre, v.bandwidth < sel.bandwidth) :=
  claim_C4_select_max exVariants (by decide)

/-- C8: for every media playlist with N segments reached while the depth
bound still allows a load, `resolve` returns exactly N URLs, one per
segment, in document order: entry `i` is segment `i`'s URI unchanged when it
is absolute, and otherwise that URI resolved against the playlist's base
URI. -/
theorem claim_C8_media_segments (fetch : String → Option FetchedPlaylist)
    (url parserBase : String) (segments : List MediaSegment)
    (maxDepth currentDepth : Nat)
    (hdepth : currentDepth < maxDepth)
    (hf : fetch url = some ⟨parserBase, .media segments⟩) :
    ∃ l, extractSegmentUrls fetch url maxDepth currentDepth = .ok l ∧
      l.length = segments.length ∧
      ∀ i, i < segments.length →
        l[i]? = (segments[i]?).map (fun s =>
          if isUrl s.uri then s.uri else urljoin (baseOf url) s.uri) := by
  refine ⟨_, extract_media hdepth hf, List.length_map _ _, ?_⟩
  intro i hi
  rw [List.getElem?_map]

/-- C8 (witness): the three-segment media playlist resolves to three URLs
in order, relative URIs resolved against the base, the absolute one
unchanged. -/
theorem claim_C8_witness :
    ∃ l, extractSegmentUrls exMediaFetch "http://h/a/m.m3u8" 5 0 = .ok l ∧
      l.length = exMediaSegments.length ∧
      ∀ i, i < exMediaSegments.length →
        l[i]? = (exMediaSegments[i]?).map (fun s =>
          if isUrl s.uri then s.uri
          else urljoin (baseOf "http://h/a/m.m3u8") s.uri) :=
  claim_C8_media_segments exMediaFetch "http://h/a/m.m3u8" "" exMediaSegments
    5 0 (by omega) rfl

lemma rsplitLast_none : ∀ (l : List Char), '/' ∉ l → rsplitLast l = none := by
  intro l
  induction l with
  | nil => intro _; rfl
  | cons c rest ih =>
    intro h
    have hrest : '/' ∉ rest := fun hm => h (List.mem_cons_of_mem c hm)
    have hc : ¬ c = '/' := fun e => h (by rw [e]; exact List.mem_cons_self _ _)
    simp only [rsplitLast, ih hrest, if_neg hc]

lemma rsplitLast_splits : ∀ (pre post : List Char), '/' ∉ post →
    rsplitLast (pre ++ '/' :: post) = some (pre, post) := by
  intro pre post hpost
  induction pre with
  | nil =>
    simp [List.nil_append, rsplitLast, rsplitLast_none post hpost]
  | cons a pre ih =>
    have ih' : rsplitLast (List.append pre ('/' :: post)) = some (pre, post) := ih
    simp only [List.cons_append, rsplitLast, ih']

lemma extractAux_parserBase_irrelevant (f g : String → Option FetchedPlaylist)
    (hfg : ∀ u, (f u).map FetchedPlaylist.node = (g u).map FetchedPlaylist.node) :
    ∀ (fuel : Nat) (url : String) (maxDepth currentDepth : Nat),
      extractAux f fuel url maxDepth currentDepth =
        extractAux g fuel url maxDepth currentDepth := by
  intro fuel
  induction fuel with
  | zero => intro url maxDepth currentDepth; rfl
  | succ fuel ih =>
    intro url maxDepth currentDepth
    simp only [extractAux]
    by_cases h : maxDepth ≤ currentDepth
    · rw [if_pos h, if_pos h]
    · rw [if_neg h, if_neg h]
      have hn := hfg url
      cases hf : f url with
      | none =>
        cases hg : g url with
        | none => rfl
        | some pg => rw [hf, hg] at hn; simp at hn
      | some pf =>
        cases hg : g url with
        | none => rw [hf, hg] at hn; simp at hn
        | some pg =>
          rw [hf, hg] at hn
          simp only [Option.map_some', Option.some.injEq] at hn
          dsimp only
          rw [hn]
          cases pg.node with
          | master variants =>
            dsimp only
            cases selectVariant variants with
            | none => rfl
            | some sel => exact ih _ _ _
          | media segments => rfl

/-- C10: the resolver's effective base URI.  First, resolution is invariant
under the base-URI information the parser supplies (two oracles whose
playlists differ only in `parserBaseUri` resolve identically — line 59
overrides it).  Second, the base actually used for a URL whose final `/`
is followed by the slash-free remainder `post` is the URL truncated just
after that last `/`: everything after it, query string included, is
discarded. -/
theorem claim_C10_base_override :
    (∀ (f g : String → Option FetchedPlaylist),
      (∀ u, (f u).map FetchedPlaylist.node = (g u).map FetchedPlaylist.node) →
      ∀ (url : String) (maxDepth currentDepth : Nat),
        extractSegmentUrls f url maxDepth currentDepth =
          extractSegmentUrls g url maxDepth currentDepth) ∧
    (∀ pre post : List Char, '/' ∉ post →
      baseOf (String.mk (pre ++ '/' :: post)) = String.mk (pre ++ ['/'])) := by
  constructor
  · intro f g hfg url maxDepth currentDepth
    exact extractAux_parserBase_irrelevant f g hfg _ url maxDepth currentDepth
  · intro pre post hpost
    show (match rsplitLast (pre ++ '/' :: post) with
      | some (b, _) => String.mk (b ++ ['/'])
      | none => String.mk (pre ++ '/' :: post) ++ "/") = _
    rw [rsplitLast_splits pre post hpost]

/-- C10 (witness): the two oracles resolve identically, and for a URL whose
last `/` sits inside its query string the base is the URL cut just after
that slash. -/
theorem claim_C10_witness :
    extractSegmentUrls exBaseFetchA "http://h/a/m.m3u8?tok=x/y" 5 0 =
      extractSegmentUrls exBaseFetchB "http://h/a/m.m3u8?tok=x/y" 5 0 ∧
    baseOf (String.mk ("http://h/a/m.m3u8?tok=x".data ++ '/' :: "y".data)) =
      String.mk ("http://h/a/m.m3u8?tok=x".data ++ ['/']) :=
  ⟨claim_C10_base_override.1 exBaseFetchA exBaseFetchB
      (by
        intro u
        cases h : u == "http://h/a/m.m3u8?tok=x/y" with
        | true => simp [exBaseFetchA, exBaseFetchB, h]
        | false => simp [exBaseFetchA, exBaseFetchB, h])
      "http://h/a/m.m3u8?tok=x/y" 5 0,
   claim_C10_base_override.2 "http://h/a/m.m3u8?tok=x".data "y".data (by decide)⟩

lemma natDigitsAux_fuel : ∀ (f1 n f2 : Nat), n < f1 → n < f2 →
    natDigitsAux f1 n = natDigitsAux f2 n := by
  intro f1
  induction f1 with
  | zero => intro n f2 h1 _; omega
  | succ f1 ih =>
    intro n f2 h1 h2
    cases f2 with
    | zero => omega
    | succ f2 =>
      by_cases hn : n < 10
      · simp only [natDigitsAux, if_pos hn]
      · simp only [natDigitsAux, if_neg hn]
        rw [ih (n / 10) f2 (by omega) (by omega)]

lemma natDigits_small {n : Nat} (h : n < 10) :
    natDigits n = [Nat.digitChar n] := by
  unfold natDigits
  simp only [natDigitsAux, if_pos h]

lemma natDigits_step {n : Nat} (h : 10 ≤ n) :
    natDigits n = natDigits (n / 10) ++ [Nat.digitChar (n % 10)] := by
  have h1 : natDigitsAux (n + 1) n =
      natDigitsAux n (n / 10) ++ [Nat.digitChar (n % 10)] := by
    simp only [natDigitsAux, if_neg (show ¬ n < 10 by omega)]
  calc natDigits n = natDigitsAux n (n / 10) ++ [Nat.digitChar (n % 10)] := h1
    _ = natDigitsAux (n / 10 + 1) (n / 10) ++ [Nat.digitChar (n % 10)] := by
        rw [natDigitsAux_fuel n (n / 10) (n / 10 + 1) (by omega) (by omega)]
    _ = natDigits (n / 10) ++ [Nat.digitChar (n % 10)] := rfl

lemma pad04_data {n : Nat} (h : n < 10000) :
    (pad04 n).data = [Nat.digitChar (n / 1000), Nat.digitChar (n / 100 % 10),
      Nat.digitChar (n / 10 % 10), Nat.digitChar (n % 10)] := by
  by_cases h1 : n < 10
  · unfold pad04
    rw [natDigits_small h1]
    have e1 : n / 1000 = 0 := by omega
    have e2 : n / 100 % 10 = 0 := by omega
    have e3 : n / 10 % 10 = 0 := by omega
    have e4 : n % 10 = n := by omega
    rw [e1, e2, e3, e4]
    rfl
  by_cases h2 : n < 100
  · unfold pad04
    rw [natDigits_step (by omega), natDigits_small (show n / 10 < 10 by omega)]
    have e1 : n / 1000 = 0 := by omega
    have e2 : n / 100 % 10 = 0 := by omega
    have e3 : n / 10 % 10 = n / 10 := by omega
    rw [e1, e2, e3]
    rfl
  by_cases h3 : n < 1000
  · unfold pad04
    rw [natDigits_step (by omega), natDigits_step (show 10 ≤ n / 10 by omega),
      natDigits_small (show n / 10 / 10 < 10 by omega)]
    have e1 : n / 1000 = 0 := by omega
    have e2 : n / 10 / 10 = n / 100 := by omega
    have e3 : n / 100 % 10 = n / 100 := by omega
    have e4 : n / 10 % 10 = n / 10 % 10 := rfl
    rw [e2, e1, e3]
    rfl
  · unfold pad04
    rw [natDigits_step (by omega), natDigits_step (show 10 ≤ n / 10 by omega),
      natDigits_step (show 10 ≤ n / 10 / 10 by omega),
      natDigits_small (show n / 10 / 10 / 10 < 10 by omega)]
    have e1 : n / 10 / 10 / 10 = n / 1000 := by omega
    have e2 : n / 10 / 10 % 10 = n / 100 % 10 := by omega
    rw [e1, e2]
    rfl

lemma digitChar_lt_digitChar {a b : Nat} (ha : a < 10) (hb : b < 10) :
    Nat.digitChar a < Nat.digitChar b ↔ a < b := by
  have H : ∀ a, a < 10 → ∀ b, b < 10 →
      (Nat.digitChar a < Nat.digitChar b ↔ a < b) := by decide
  exact H a ha b hb

lemma lex_digits4 {i j : Nat} (hij : i < j) (hj : j < 10000) (u v : List Char) :
    List.Lex (· < ·)
      (Nat.digitChar (i / 1000) :: Nat.digitChar (i / 100 % 10) ::
        Nat.digitChar (i / 10 % 10) :: Nat.digitChar (i % 10) :: u)
      (Nat.digitChar (j / 1000) :: Nat.digitChar (j / 100 % 10) ::
        Nat.digitChar (j / 10 % 10) :: Nat.digitChar (j % 10) :: v) := by
  rcases Nat.lt_trichotomy (i / 1000) (j / 1000) with h3 | h3 | h3
  · exact List.Lex.rel ((digitChar_lt_digitChar (by omega) (by omega)).mpr h3)
  · rw [h3]
    refine List.Lex.cons ?_
    rcases Nat.lt_trichotomy (i / 100 % 10) (j / 100 % 10) with h2 | h2 | h2
    · exact List.Lex.rel ((digitChar_lt_digitChar (by omega) (by omega)).mpr h2)
    · rw [h2]
      refine List.Lex.cons ?_
      rcases Nat.lt_trichotomy (i / 10 % 10) (j / 10 % 10) with h1 | h1 | h1
      · exact List.Lex.rel ((digitChar_lt_digitChar (by omega) (by omega)).mpr h1)
      · rw [h1]
        refine List.Lex.cons ?_
        exact List.Lex.rel
          ((digitChar_lt_digitChar (by omega) (by omega)).mpr (by omega))
      · omega
    · omega
  · omega

lemma lex_append_left (p : List Char) {s t : List Char}
    (h : List.Lex (· < ·) s t) : List.Lex (· < ·) (p ++ s) (p ++ t) := by
  induction p with
  | nil => exact h
  | cons c p ih => exact List.Lex.cons ih

lemma planPath_lt {segmentsDir : String} {i j : Nat} (hij : i < j)
    (hj : j < 10000) : planPath segmentsDir i < planPath segmentsDir j := by
  have hform : ∀ n, (planPath segmentsDir n).data =
      (segmentsDir.data ++ "/".data ++ "segment_".data) ++
        ((pad04 n).data ++ ".ts".data) := by
    intro n
    simp only [planPath, joinPath, segmentFileName, String.data_append,
      List.append_assoc]
  rw [String.lt_iff_toList_lt]
  show List.Lex (· < ·) (planPath segmentsDir i).data (planPath segmentsDir j).data
  rw [hform i, hform j, pad04_data (by omega : i < 10000), pad04_data hj]
  apply lex_append_left
  simp only [List.cons_append, List.nil_append]
  exact lex_digits4 hij hj _ _

/-- C2 (counterexample): with 10001 input URLs the `04d` field is too
narrow — destination path 10000 (`segment_10000.ts`) sorts lexically before
destination path 9999 (`segment_9999.ts`), so "for any input length" is
false. -/
theorem claim_C2_counterexample :
    ¬ (∀ (segmentsDir : String) (segmentUrls : List String) (i j : Nat),
        i < j → j < segmentUrls.length →
        planPath segmentsDir i < planPath segmentsDir j) := by
  intro h
  have h2 := h "d" (List.replicate 10001 "u") 9999 10000 (by omega)
    (by rw [List.length_replicate]; omega)
  revert h2
  rw [String.lt_iff_toList_lt]
  decide

/-- C2 (amended): for every input sequence of at most 10000 segment URLs,
the fixed-width zero-padded destination paths are strictly increasing in
the lexical string order, so their lexical sort order equals the input URL
order; beyond 10000 the four-digit field overflows and the guarantee
fails. -/
theorem claim_C2_plan_order (segmentsDir : String) (segmentUrls : List String)
    (i j : Nat) (hij : i < j) (hj : j < segmentUrls.length)
    (hlen : segmentUrls.length ≤ 10000) :
    planPath segmentsDir i < planPath segmentsDir j :=
  planPath_lt hij (by omega)

/-- C2 (witness): for a three-URL input, path 0 sorts before path 2. -/
theorem claim_C2_witness :
    planPath "/t/ts_segments" 0 < planPath "/t/ts_segments" 2 :=
  claim_C2_plan_order "/t/ts_segments" ["u1", "u2", "u3"] 0 2
    (by omega) (by decide) (by decide)

lemma mergeAndConvert_success (env : PipelineEnv) (segmentFiles : List String)
    (inter out : String) (fs : FS) :
    (mergeAndConvert env segmentFiles inter out fs).1 =
      (env.manifestWriteOk && env.mergeExitOk && env.convertExitOk) := by
  unfold mergeAndConvert
  cases h1 : env.manifestWriteOk <;> cases h2 : env.mergeExitOk <;>
    cases h3 : env.convertExitOk <;> simp [h1, h2, h3]

lemma mergeAndConvert_events (env : PipelineEnv) (segmentFiles : List String)
    (inter out : String) (fs : FS) :
    (mergeAndConvert env segmentFiles inter out fs).2.2 =
      if env.manifestWriteOk then
        (if env.mergeExitOk then [Stage.merging, Stage.converting]
          else [Stage.merging])
      else [] := by
  unfold mergeAndConvert
  cases h1 : env.manifestWriteOk <;> cases h2 : env.mergeExitOk <;>
    cases h3 : env.convertExitOk <;> simp [h1, h2, h3]

lemma mergeAndConvert_manifest_gone (env : PipelineEnv)
    (segmentFiles : List String) (inter out : String) (fs : FS) :
    (inter ++ ".txt") ∉ (mergeAndConvert env segmentFiles inter out fs).2.1 := by
  unfold mergeAndConvert
  cases h1 : env.manifestWriteOk <;> cases h2 : env.mergeExitOk <;>
    cases h3 : env.convertExitOk <;> cases h4 : env.mergeWritesOutput <;>
    cases h5 : env.convertWritesOutput <;>
    simp [h1, h2, h3, h4, h5, List.mem_filter]

lemma mergeAndConvert_mem (env : PipelineEnv) (segmentFiles : List String)
    (inter out : String) (fs : FS) (p : String) (hp : p ≠ inter ++ ".txt") :
    (p ∈ (mergeAndConvert env segmentFiles inter out fs).2.1 ↔
      (p ∈ fs ∨
        (env.manifestWriteOk = true ∧ env.mergeWritesOutput = true ∧ p = inter) ∨
        (env.manifestWriteOk = true ∧ env.mergeExitOk = true ∧
          env.convertWritesOutput = true ∧ p = out))) := by
  unfold mergeAndConvert
  cases h1 : env.manifestWriteOk <;> cases h2 : env.mergeExitOk <;>
    cases h3 : env.convertExitOk <;> cases h4 : env.mergeWritesOutput <;>
    cases h5 : env.convertWritesOutput <;>
    (simp [h1, h2, h3, h4, h5, List.mem_filter, List.mem_cons, hp, bne_iff_ne];
      try tauto)

lemma leadsWith_append : ∀ (l r : List Char), leadsWith l (l ++ r) = true := by
  intro l r
  induction l with
  | nil => rfl
  | cons c l ih => simp [leadsWith, ih]

lemma isUnder_self (d : String) : isUnder d d = true := by
  simp [isUnder]

lemma isUnder_of_data {d p : String} (r : List Char)
    (h : p.data = (d.data ++ ['/']) ++ r) : isUnder d p = true := by
  unfold isUnder
  rw [h, leadsWith_append, Bool.or_true]

lemma slash_data : ("/" : String).data = ['/'] := rfl

lemma isUnder_joinPath (d x : String) : isUnder d (joinPath d x) = true := by
  refine isUnder_of_data x.data ?_
  simp [joinPath, String.data_append, slash_data]

lemma isUnder_joinPath2 (d a b : String) :
    isUnder d (joinPath (joinPath d a) b) = true := by
  refine isUnder_of_data (a.data ++ '/' :: b.data) ?_
  simp [joinPath, String.data_append, slash_data]

lemma isUnder_joinPath_append (d a y : String) :
    isUnder d (joinPath d a ++ y) = true := by
  refine isUnder_of_data (a.data ++ y.data) ?_
  simp [joinPath, String.data_append, slash_data]

lemma length_joinPath (d x : String) :
    (joinPath d x).length = d.length + 1 + x.length := by
  simp [joinPath, String.length_append]
  rfl

lemma ne_joinPath (d x : String) : d ≠ joinPath d x := by
  intro e
  have h := congrArg String.length e
  rw [length_joinPath] at h
  omega

lemma ne_joinPath_append (d x y : String) : d ≠ joinPath d x ++ y := by
  intro e
  have h := congrArg String.length e
  rw [String.length_append, length_joinPath] at h
  omega

lemma rsplitLast_eq_some :
    ∀ (l b a : List Char), rsplitLast l = some (b, a) → l = b ++ '/' :: a := by
  intro l
  induction l with
  | nil => intro b a h; simp [rsplitLast] at h
  | cons c rest ih =>
    intro b a h
    simp only [rsplitLast] at h
    cases hr : rsplitLast rest with
    | some pr =>
      obtain ⟨b', a'⟩ := pr
      rw [hr] at h
      simp only [Option.some.injEq, Prod.mk.injEq] at h
      obtain ⟨hb, ha⟩ := h
      subst hb
      subst ha
      rw [ih b' a' hr]
      rfl
    | none =>
      rw [hr] at h
      by_cases hc : c = '/'
      · rw [if_pos hc] at h
        simp only [Option.some.injEq, Prod.mk.injEq] at h
        obtain ⟨hb, ha⟩ := h
        subst hb
        subst ha
        rw [hc]
        rfl
      · rw [if_neg hc] at h
        cases h

lemma dirName_short (s : String) :
    dirName s = "" ∨ (dirName s).length < s.length := by
  unfold dirName
  cases h : rsplitLast s.data with
  | none => exact Or.inl rfl
  | some pr =>
    obtain ⟨b, a⟩ := pr
    right
    have hs : s.data = b ++ '/' :: a := rsplitLast_eq_some s.data b a h
    show (String.mk b).length < s.length
    have h1 : (String.mk b).length = b.length := rfl
    have h2 : s.length = s.data.length := rfl
    rw [h1, h2, hs]
    simp

lemma core_temp_mem (env : PipelineEnv) (cfg : AppConfig)
    (url out : String) (td : Option String) (fs : FS) :
    effectiveTempDir cfg td ∈ (downloadVideoCore env cfg url out td fs).2.1 := by
  simp only [downloadVideoCore]
  cases hr : extractSegmentUrls env.fetch url 5 0 with
  | error e =>
    by_cases ho : dirName out = "" <;> simp [ho]
  | ok segUrls =>
    cases hff : env.fetchFilesOk with
    | false =>
      by_cases ho : dirName out = "" <;> simp [ho]
    | true =>
      simp only [Bool.true_eq_false, if_true]
      refine (mergeAndConvert_mem _ _ _ _ _ _
        (ne_joinPath_append _ "merged_video.ts" ".txt")).mpr (Or.inl ?_)
      refine List.mem_append_left _ ?_
      by_cases ho : dirName out = "" <;> simp [ho]

/-- C5: for every list of segment files and every outcome of the external
phases (manifest write failure, non-zero concat exit, non-zero remux exit,
or overall success — each process possibly leaving output behind), the
manifest file `intermediate_ts_path + ".txt"` does not exist after
`_merge_and_convert_segments` returns. -/
theorem claim_C5_manifest_never_survives (env : PipelineEnv)
    (segmentFiles : List String) (intermediateTsPath finalOutputPath : String)
    (fs : FS) :
    (intermediateTsPath ++ ".txt") ∉
      (mergeAndConvert env segmentFiles intermediateTsPath finalOutputPath fs).2.1 :=
  mergeAndConvert_manifest_gone env segmentFiles intermediateTsPath
    finalOutputPath fs

/-- C5 (witness): concretely, after a merge-and-convert run the manifest
path is absent from the resulting file system. -/
theorem claim_C5_witness :
    (joinPath "/t" "merged_video.ts" ++ ".txt") ∉
      (mergeAndConvert exEnvOk (planPaths (joinPath "/t" "ts_segments") 3)
        (joinPath "/t" "merged_video.ts") "/out/v.mp4" []).2.1 :=
  claim_C5_manifest_never_survives exEnvOk
    (planPaths (joinPath "/t" "ts_segments") 3)
    (joinPath "/t" "merged_video.ts") "/out/v.mp4" []

/-- C6: after `download_video` returns — whether it succeeded or failed at
any stage — the workspace directory exists iff the effective cleanup flag
was false, and when the flag was true every path in the workspace tree has
been removed. -/
theorem claim_C6_workspace_cleanup (env : PipelineEnv) (cfg : AppConfig)
    (url out : String) (td : Option String) (ct : Option Bool) (fs : FS) :
    ((effectiveTempDir cfg td) ∈
        (downloadVideo env cfg url out td ct fs).2.1 ↔
      effectiveCleanup cfg ct = false) ∧
    (effectiveCleanup cfg ct = true →
      ∀ p, isUnder (effectiveTempDir cfg td) p = true →
        p ∉ (downloadVideo env cfg url out td ct fs).2.1) := by
  constructor
  · cases hc : effectiveCleanup cfg ct with
    | false =>
      simp only [downloadVideo, hc, Bool.false_eq_true, if_false]
      simp [core_temp_mem env cfg url out td fs]
    | true =>
      simp only [downloadVideo, hc, if_true]
      simp [List.mem_filter, isUnder_self]
  · intro hc p hup
    simp only [downloadVideo, hc, if_true]
    simp [List.mem_filter, hup]

/-- C6 (witness): a concrete successful run with an explicit temporary
directory and the cleanup flag set has its workspace removed. -/
theorem claim_C6_witness :
    ((effectiveTempDir exConfig (some "/t")) ∈
        (downloadVideo exEnvOk exConfig "http://h/a/m.m3u8" "/out/v.mp4"
          (some "/t") (some true) []).2.1 ↔
      effectiveCleanup exConfig (some true) = false) ∧
    (effectiveCleanup exConfig (some true) = true →
      ∀ p, isUnder (effectiveTempDir exConfig (some "/t")) p = true →
        p ∉ (downloadVideo exEnvOk exConfig "http://h/a/m.m3u8" "/out/v.mp4"
          (some "/t") (some true) []).2.1) :=
  claim_C6_workspace_cleanup exEnvOk exConfig "http://h/a/m.m3u8" "/out/v.mp4"
    (some "/t") (some true) []

/-- C3 (amended): the coordinator performs no independent verification of
file presence.  Once resolution succeeds and the batch fetch returns
without raising, the pipeline proceeds directly to the merge step: the
outcome is determined solely by the manifest-write and subprocess exit
flags — it does not depend on which destination files actually exist — and
whenever the manifest is written the merge process is invoked. -/
theorem claim_C3_no_verification (env : PipelineEnv) (cfg : AppConfig)
    (url out : String) (td : Option String) (ct : Option Bool) (fs : FS)
    (segUrls : List String)
    (hok : extractSegmentUrls env.fetch url 5 0 = .ok segUrls)
    (hff : env.fetchFilesOk = true) :
    ((downloadVideo env cfg url out td ct fs).1 =
      if env.manifestWriteOk && env.mergeExitOk && env.convertExitOk
      then .ok () else .error .mergeConvertFailed) ∧
    (env.manifestWriteOk = true →
      Stage.merging ∈ (downloadVideo env cfg url out td ct fs).2.2) := by
  constructor
  · simp only [downloadVideo, downloadVideoCore, hok, hff, if_true]
    rw [mergeAndConvert_success]
  · intro hmw
    simp only [downloadVideo, downloadVideoCore, hok, hff, if_true]
    rw [mergeAndConvert_events]
    cases hme : env.mergeExitOk <;> simp [hmw, hme]

/-- C9: failure in any stage aborts all later forward stages while cleanup
still runs last.  Concretely: the recorded stages always end with
`cleaningUp`; a resolution failure is propagated and only
resolving/cleanup run (no download, merge or convert); a batch-download
failure after successful resolution is propagated as a download error and
only resolving/downloading/cleanup run (no merge or convert); and a
non-zero concat exit means the convert stage is never invoked. -/
theorem claim_C9_failure_aborts (env : PipelineEnv) (cfg : AppConfig)
    (url out : String) (td : Option String) (ct : Option Bool) (fs : FS) :
    ((downloadVideo env cfg url out td ct fs).2.2.getLast? =
      some Stage.cleaningUp) ∧
    (∀ e, extractSegmentUrls env.fetch url 5 0 = .error e →
      (downloadVideo env cfg url out td ct fs).1 = .error e ∧
      (downloadVideo env cfg url out td ct fs).2.2 =
        [Stage.resolving, Stage.cleaningUp]) ∧
    (∀ segUrls, extractSegmentUrls env.fetch url 5 0 = .ok segUrls →
      env.fetchFilesOk = false →
      (downloadVideo env cfg url out td ct fs).1 = .error .downloadError ∧
      (downloadVideo env cfg url out td ct fs).2.2 =
        [Stage.resolving, Stage.downloading, Stage.cleaningUp]) ∧
    (env.mergeExitOk = false →
      Stage.converting ∉ (downloadVideo env cfg url out td ct fs).2.2) := by
  refine ⟨?_, ?_, ?_, ?_⟩
  · simp only [downloadVideo]
    simp
  · intro e he
    simp only [downloadVideo, downloadVideoCore, he]
    constructor
    · first
      | rfl
      | trivial
    · first
      | rfl
      | trivial
  · intro segUrls hok hff
    simp only [downloadVideo, downloadVideoCore, hok, hff]
    constructor
    · first
      | rfl
      | trivial
    · first
      | rfl
      | trivial
  · intro hme
    cases hr : extractSegmentUrls env.fetch url 5 0 with
    | error e =>
      simp [downloadVideo, downloadVideoCore, hr]
    | ok segUrls =>
      cases hff : env.fetchFilesOk with
      | false =>
        simp [downloadVideo, downloadVideoCore, hr, hff]
      | true =>
        simp only [downloadVideo, downloadVideoCore, hr, hff, if_true]
        rw [mergeAndConvert_events]
        cases hmw : env.manifestWriteOk <;> simp [hmw, hme]

lemma core_out_mem (env : PipelineEnv) (cfg : AppConfig) (url out : String)
    (td : Option String) (fs : FS)
    (hout : isUnder (effectiveTempDir cfg td) out = false)
    (hfs : out ∉ fs) :
    (out ∈ (downloadVideoCore env cfg url out td fs).2.1 ↔
      (Stage.converting ∈ (downloadVideoCore env cfg url out td fs).2.2 ∧
        env.convertWritesOutput = true)) := by
  have hnu : ∀ q : String, isUnder (effectiveTempDir cfg td) q = true →
      out ≠ q := by
    intro q hq e
    rw [e, hq] at hout
    cases hout
  have hT : out ≠ effectiveTempDir cfg td := hnu _ (isUnder_self _)
  have hSeg : out ≠ joinPath (effectiveTempDir cfg td) "ts_segments" :=
    hnu _ (isUnder_joinPath _ _)
  have hInter : out ≠ joinPath (effectiveTempDir cfg td) "merged_video.ts" :=
    hnu _ (isUnder_joinPath _ _)
  have hMan : out ≠
      joinPath (effectiveTempDir cfg td) "merged_video.ts" ++ ".txt" :=
    hnu _ (isUnder_joinPath_append _ _ _)
  have hPlan : ∀ i,
      out ≠ planPath (joinPath (effectiveTempDir cfg td) "ts_segments") i :=
    fun i => hnu _ (isUnder_joinPath2 _ _ _)
  have hfs2 : out ∉ (if dirName out = "" then
      effectiveTempDir cfg td ::
        joinPath (effectiveTempDir cfg td) "ts_segments" :: fs
    else dirName out :: effectiveTempDir cfg td ::
      joinPath (effectiveTempDir cfg td) "ts_segments" :: fs) := by
    by_cases ho : dirName out = ""
    · rw [if_pos ho]
      simp [List.mem_cons, hT, hSeg, hfs]
    · rw [if_neg ho]
      have hod : out ≠ dirName out := by
        rcases dirName_short out with h | h
        · exact absurd h ho
        · intro e
          have h2 := h
          rw [← e] at h2
          omega
      simp [List.mem_cons, hT, hSeg, hod, hfs]
  simp only [downloadVideoCore]
  cases hr : extractSegmentUrls env.fetch url 5 0 with
  | error e =>
    constructor
    · intro hmem
      exact absurd hmem hfs2
    · rintro ⟨hconv, _⟩
      simp at hconv
  | ok segUrls =>
    cases hff : env.fetchFilesOk with
    | false =>
      simp only [Bool.false_eq_true, if_false]
      constructor
      · intro hmem
        exact absurd hmem hfs2
      · rintro ⟨hconv, _⟩
        simp at hconv
    | true =>
      simp only [if_true]
      rw [mergeAndConvert_mem _ _ _ _ _ out hMan, mergeAndConvert_events]
      have hdl : out ∉ List.filterMap
          (fun i => if env.downloaded i
            then some (planPath (joinPath (effectiveTempDir cfg td) "ts_segments") i)
            else none)
          (List.range segUrls.length) := by
        intro hmem
        rcases List.mem_filterMap.mp hmem with ⟨i, _, hi⟩
        by_cases hd : env.downloaded i
        · rw [if_pos hd] at hi
          exact hPlan i (Option.some.inj hi).symm
        · rw [if_neg hd] at hi
          cases hi
      constructor
      · rintro (h | ⟨_, _, h⟩ | ⟨hmw, hme, hcw, _⟩)
        · rcases List.mem_append.mp h with h | h
          · exact absurd h hfs2
          · exact absurd h hdl
        · exact absurd h hInter
        · refine ⟨?_, hcw⟩
          simp [hmw, hme]
      · rintro ⟨hconv, hcw⟩
        cases hmw : env.manifestWriteOk with
        | false =>
          simp [hmw] at hconv
        | true =>
          cases hme : env.mergeExitOk with
          | false =>
            simp [hmw, hme] at hconv
          | true =>
            exact Or.inr (Or.inr ⟨rfl, rfl, hcw, rfl⟩)

/-- C7 (amended): the pipeline never removes the requested output path: a
path outside the workspace that did not exist beforehand exists after
`download_video` returns exactly when the convert stage was invoked and the
convert process wrote output there — in particular, on success (remux ran
and wrote output) the file exists, while after a convert failure the
partial file the process wrote remains in place rather than being
deleted. -/
theorem claim_C7_output_only_from_convert (env : PipelineEnv)
    (cfg : AppConfig) (url out : String) (td : Option String)
    (ct : Option Bool) (fs : FS)
    (hout : isUnder (effectiveTempDir cfg td) out = false)
    (hfs : out ∉ fs) :
    (out ∈ (downloadVideo env cfg url out td ct fs).2.1 ↔
      (Stage.converting ∈ (downloadVideo env cfg url out td ct fs).2.2 ∧
        env.convertWritesOutput = true)) := by
  have hcore := core_out_mem env cfg url out td fs hout hfs
  simp only [downloadVideo]
  have hkeep : ∀ l : FS,
      (out ∈ (if effectiveCleanup cfg ct then
        l.filter (fun p => !isUnder (effectiveTempDir cfg td) p) else l)) ↔
        out ∈ l := by
    intro l
    cases hc : effectiveCleanup cfg ct <;> simp [List.mem_filter, hout]
  rw [hkeep, hcore]
  simp [List.mem_append]

/-- C3 (counterexample): the fetch engine returns but segment 1's
destination file is absent; by the claim the coordinator should fail with
`DownloadIncomplete` naming index 1 instead of returning success — instead
the run returns success and the merge stage is invoked with the file still
missing: no verification of file presence happens between download and
merge. -/
theorem claim_C3_counterexample :
    (downloadVideo exEnvMissing exConfig "http://h/a/m.m3u8" "/out/v.mp4"
      (some "/t") (some false) []).1 = .ok () ∧
    planPath (joinPath "/t" "ts_segments") 1 ∉
      (downloadVideo exEnvMissing exConfig "http://h/a/m.m3u8" "/out/v.mp4"
        (some "/t") (some false) []).2.1 ∧
    Stage.merging ∈
      (downloadVideo exEnvMissing exConfig "http://h/a/m.m3u8" "/out/v.mp4"
        (some "/t") (some false) []).2.2 :=
  ⟨rfl, by decide, by decide⟩

/-- C3 (witness for the amended claim): in the missing-file environment the
outcome is the one determined by the merge/convert flags alone, and the
merge stage is invoked. -/
theorem claim_C3_witness :
    ((downloadVideo exEnvMissing exConfig "http://h/a/m.m3u8" "/out/v.mp4"
      (some "/t") (some false) []).1 =
      if exEnvMissing.manifestWriteOk && exEnvMissing.mergeExitOk &&
        exEnvMissing.convertExitOk
      then .ok () else .error .mergeConvertFailed) ∧
    (exEnvMissing.manifestWriteOk = true →
      Stage.merging ∈
        (downloadVideo exEnvMissing exConfig "http://h/a/m.m3u8" "/out/v.mp4"
          (some "/t") (some false) []).2.2) :=
  claim_C3_no_verification exEnvMissing exConfig "http://h/a/m.m3u8"
    "/out/v.mp4" (some "/t") (some false) []
    ["http://h/a/s1.ts", "http://cdn/s2.ts", "http://h/a/s3.ts"] rfl rfl

/-- C7 (counterexample): the convert process writes a partial file at the
requested output path and then fails; the invocation fails, yet the file is
still present at the output path afterwards — contradicting "on failure,
no file at that path". -/
theorem claim_C7_counterexample :
    (downloadVideo exEnvConvertFail exConfig "http://h/a/m.m3u8" "/out/v.mp4"
      (some "/t") (some true) []).1 = .error .mergeConvertFailed ∧
    "/out/v.mp4" ∈
      (downloadVideo exEnvConvertFail exConfig "http://h/a/m.m3u8" "/out/v.mp4"
        (some "/t") (some true) []).2.1 :=
  ⟨rfl, by decide⟩

/-- C7 (witness for the amended claim): in the failing-convert environment
the output path's existence after the run is equivalent to the convert
stage having run and written output. -/
theorem claim_C7_witness :
    ("/out/v.mp4" ∈
        (downloadVideo exEnvConvertFail exConfig "http://h/a/m.m3u8"
          "/out/v.mp4" (some "/t") (some true) []).2.1 ↔
      (Stage.converting ∈
        (downloadVideo exEnvConvertFail exConfig "http://h/a/m.m3u8"
          "/out/v.mp4" (some "/t") (some true) []).2.2 ∧
        exEnvConvertFail.convertWritesOutput = true)) :=
  claim_C7_output_only_from_convert exEnvConvertFail exConfig
    "http://h/a/m.m3u8" "/out/v.mp4" (some "/t") (some true) []
    (by decide) (by decide)

/-- C9 (witness): the stage-abort guarantees instantiated at a concrete
successful run. -/
theorem claim_C9_witness :
    ((downloadVideo exEnvOk exConfig "http://h/a/m.m3u8" "/out/v.mp4"
      (some "/t") (some true) []).2.2.getLast? = some Stage.cleaningUp) ∧
    (∀ e, extractSegmentUrls exEnvOk.fetch "http://h/a/m.m3u8" 5 0 = .error e →
      (downloadVideo exEnvOk exConfig "http://h/a/m.m3u8" "/out/v.mp4"
        (some "/t") (some true) []).1 = .error e ∧
      (downloadVideo exEnvOk exConfig "http://h/a/m.m3u8" "/out/v.mp4"
        (some "/t") (some true) []).2.2 =
        [Stage.resolving, Stage.cleaningUp]) ∧
    (∀ segUrls, extractSegmentUrls exEnvOk.fetch "http://h/a/m.m3u8" 5 0 =
        .ok segUrls →
      exEnvOk.fetchFilesOk = false →
      (downloadVideo exEnvOk exConfig "http://h/a/m.m3u8" "/out/v.mp4"
        (some "/t") (some true) []).1 = .error .downloadError ∧
      (downloadVideo exEnvOk exConfig "http://h/a/m.m3u8" "/out/v.mp4"
        (some "/t") (some true) []).2.2 =
        [Stage.resolving, Stage.downloading, Stage.cleaningUp]) ∧
    (exEnvOk.mergeExitOk = false →
      Stage.converting ∉
        (downloadVideo exEnvOk exConfig "http://h/a/m.m3u8" "/out/v.mp4"
          (some "/t") (some true) []).2.2) :=
  claim_C9_failure_aborts exEnvOk exConfig "http://h/a/m.m3u8" "/out/v.mp4"
    (some "/t") (some true) []
